import Mathlib

/-!
Verification of the caching weather reverse-proxy (`src/Backend/app.py`).

The embedding follows the source file closely:
* Python strings are modelled as `List Char` (`PyStr`); Python's `repr` for
  printable strings is `pyReprChars` (delimiter selection and escaping as in
  CPython: single quotes unless the string contains `'` but no `"`; the
  delimiter and backslash are escaped).
* `_cache_key`, `_forward_get`, the `@cached` wrapper `_cached_forward` (as
  `forward`), and the `/weather` handler `weather_proxy` are embedded from
  the source.
* The retry behaviour of the `requests` session is embedded from the
  configuration in the source (`Retry(total=3, status_forcelist=[429, 500,
  502, 503, 504], allowed_methods={"GET"})`) together with urllib3's
  documented semantics: `total` is the number of retries allowed; a retry
  counter is decremented on each failed attempt and the request fails when
  the counter would drop below zero.
* The `cachetools.TTLCache` container is not part of the repository; it is
  modelled from the spec (see `cacheGet` / `cachePut`).
-/

set_option linter.unusedVariables false
set_option linter.unnecessarySimpa false

namespace WeatherProxy

/-- Python strings, modelled as lists of characters. -/
abbrev PyStr := List Char

/-- Structured JSON values (enough structure for the payloads the app builds). -/
inductive JsonVal where
  | str (s : String)
  | num (n : Int)
  | obj (fields : List (String × JsonVal))

/-- A payload returned by `_forward_get`: parsed JSON or raw body text. -/
inductive Payload where
  | json (v : JsonVal)
  | text (s : String)

/-- Body of an upstream HTTP response: either valid JSON (so `resp.json()`
succeeds) or raw text (so `resp.json()` raises `ValueError`). -/
inductive Body where
  | jsonBody (v : JsonVal)
  | rawText (s : String)

/-- An upstream HTTP response. -/
structure HttpResponse where
  status : Nat
  body : Body

/-- Outcome of one attempted GET to upstream: a response, or a network error. -/
inductive AttemptOutcome where
  | response (r : HttpResponse)
  | netError (msg : String)

/-- The `requests` exceptions that the embedded code can produce: retry
exhaustion (urllib3 `MaxRetryError` surfaced as a `RetryError` /
`ConnectionError`) and `raise_for_status`'s `HTTPError`.  All are subclasses
of `requests.exceptions.RequestException` and are caught by `_forward_get`. -/
inductive RequestException where
  | retryError (cause : String)
  | httpError (status : Nat) (msg : String)
deriving DecidableEq

/-- `str(e)` for the exceptions above. -/
def excStr : RequestException → String
  | .retryError cause => cause
  | .httpError _ msg => msg

/-! ### The retry configuration (source lines 21-27) -/

/-- `status_forcelist=[429, 500, 502, 503, 504]` from the source. -/
def status_forcelist : List Nat := [429, 500, 502, 503, 504]

/-- `allowed_methods=frozenset(["GET"])` from the source. -/
def allowed_methods : List String := ["GET"]

/-- `Retry(total=3, ...)`: urllib3 allows `total` retries beyond the first
attempt; the retry counter starts at 3. -/
def retry_total : Nat := 3

/-- urllib3 `Retry.is_retry` for this configuration (no `Retry-After`
handling is relevant: the forcelist branch decides): a response status is
retried iff the method is allowed and the status is in the forcelist. -/
def is_retry (method : String) (status : Nat) : Bool :=
  method ∈ allowed_methods && status ∈ status_forcelist

/-- The urllib3 retry loop for one logical request.  `outcomes i` is what the
network does on attempt `i` (0-based).  `rem` is the remaining retry budget
(`Retry.total`); after a failed attempt the budget is decremented and, when a
failure occurs with no budget left, `MaxRetryError` is raised (the failing
attempt itself still happened).  Returns the outcome together with the number
of attempts performed. -/
def retryLoop (method : String) (outcomes : Nat → AttemptOutcome) :
    Nat → Nat → (Except RequestException HttpResponse) × Nat
  | i, rem =>
    match outcomes i with
    | .netError msg =>
      match rem with
      | 0 => (.error (.retryError ("Max retries exceeded: " ++ msg)), i + 1)
      | r + 1 => retryLoop method outcomes (i + 1) r
    | .response resp =>
      if is_retry method resp.status then
        match rem with
        | 0 => (.error (.retryError ("Max retries exceeded with status " ++
                  toString resp.status)), i + 1)
        | r + 1 => retryLoop method outcomes (i + 1) r
      else (.ok resp, i + 1)

/-- `session.get(...)` through the mounted `HTTPAdapter(max_retries=retries)`:
runs the retry loop starting with budget `retry_total`. -/
def session_get (method : String) (outcomes : Nat → AttemptOutcome) :
    (Except RequestException HttpResponse) × Nat :=
  retryLoop method outcomes 0 retry_total

/-- `resp.raise_for_status()`: raises `HTTPError` for 4xx/5xx statuses. -/
def raise_for_status (r : HttpResponse) : Except RequestException HttpResponse :=
  if 400 ≤ r.status ∧ r.status < 600 then
    .error (.httpError r.status ("HTTP Error " ++ toString r.status))
  else .ok r

/-- The `{"error": "upstream_error", "detail": str(e)}` payload from the
source's `except requests.exceptions.RequestException` handler. -/
def upstreamErrorPayload (detail : String) : Payload :=
  .json (.obj [("error", .str "upstream_error"), ("detail", .str detail)])

/-- `_forward_get(path, params)` (source lines 35-52): issue the GET through
the retrying session, call `raise_for_status`, parse JSON with a raw-text
fallback, and convert every `RequestException` into `(502, upstream_error)`.
The `path` and `params` arguments only affect the URL and logging, not the
result shape; `outcomes` is the network behaviour of this call. -/
def _forward_get (path : PyStr) (params : List (PyStr × PyStr))
    (outcomes : Nat → AttemptOutcome) : Nat × Payload :=
  match (session_get "GET" outcomes).1 >>= raise_for_status with
  | .ok resp =>
    match resp.body with
    | .jsonBody v => (resp.status, .json v)
    | .rawText s => (resp.status, .text s)
  | .error e => (502, upstreamErrorPayload (excStr e))

/-! ### `_cache_key` (source lines 56-59)

`_cache_key(path, params)` is `f"{path}|{items}"` where
`items = tuple(sorted(params.items()))`.  We embed Python's `repr` for
printable strings (which `str` of a tuple applies to each component),
Python's tuple rendering (including the trailing comma of 1-tuples), and
`sorted`'s lexicographic order on pairs of strings. -/

/-- Python's escaping inside a `repr` delimited by `q`: the delimiter and the
backslash are backslash-escaped, all other (printable) characters are kept. -/
def pyEscape (q : Char) : List Char → List Char
  | [] => []
  | c :: cs =>
    if c = '\\' ∨ c = q then '\\' :: c :: pyEscape q cs
    else c :: pyEscape q cs

/-- Python's `repr` of a (printable) string: double quotes are used when the
string contains a single quote but no double quote, otherwise single quotes. -/
def pyReprChars (s : PyStr) : PyStr :=
  if s.contains '\'' ∧ ¬ s.contains '"' then
    '"' :: pyEscape '"' s ++ ['"']
  else
    '\'' :: pyEscape '\'' s ++ ['\'']

/-- Body of a pair rendering, after its opening parenthesis: `'k', 'v')`. -/
def pyReprPairBody (p : PyStr × PyStr) : PyStr :=
  pyReprChars p.1 ++ ',' :: ' ' :: pyReprChars p.2 ++ [')']

/-- `repr` of a pair of strings: `('k', 'v')`. -/
def pyReprPair (p : PyStr × PyStr) : PyStr :=
  '(' :: pyReprPairBody p

/-- Continuation of a tuple rendering: `, e` for each further element. -/
def pyReprTupleRest : List (PyStr × PyStr) → PyStr
  | [] => []
  | p :: ps => ',' :: ' ' :: pyReprPair p ++ pyReprTupleRest ps

/-- Python's `str` of a tuple of pairs of strings: `()`, `(e,)`, `(e1, e2, ...)`. -/
def pyReprTuple : List (PyStr × PyStr) → PyStr
  | [] => ['(', ')']
  | [p] => '(' :: pyReprPair p ++ [',', ')']
  | p :: ps => '(' :: pyReprPair p ++ pyReprTupleRest ps ++ [')']

/-- Python's `<` on strings: lexicographic by code point. -/
def pyStrLt : PyStr → PyStr → Bool
  | [], [] => false
  | [], _ :: _ => true
  | _ :: _, [] => false
  | a :: as, b :: bs => if a < b then true else if b < a then false else pyStrLt as bs

/-- Python's `<=` on pairs of strings (tuple comparison): lexicographic. -/
def pairLe (p q : PyStr × PyStr) : Prop :=
  pyStrLt p.1 q.1 = true ∨ (p.1 = q.1 ∧ (pyStrLt p.2 q.2 = true ∨ p.2 = q.2))

instance : DecidableRel pairLe := fun p q => by
  unfold pairLe; exact inferInstance

/-- `sorted(params.items())` for a params mapping given as a list of
(name, value) pairs in insertion order. -/
def sortItems (params : List (PyStr × PyStr)) : List (PyStr × PyStr) :=
  List.insertionSort pairLe params

/-- `_cache_key(path, params) = f"{path}|{tuple(sorted(params.items()))}"`. -/
def _cache_key (path : PyStr) (params : List (PyStr × PyStr)) : PyStr :=
  path ++ '|' :: pyReprTuple (sortItems params)

/-! ### The response cache

`cache = TTLCache(maxsize=CACHE_MAXSIZE, ttl=CACHE_TTL)` (source line 30).
The `cachetools` implementation is not part of this repository; the container
is modelled from the spec. -/

/-- A cache entry: the stored `(statusCode, payload)` value and its expiry
instant (insertion time plus TTL). -/
structure CacheEntry where
  value : Nat × Payload
  expires : Int

/-- A cache state: entries keyed by cache key, oldest insertion first. -/
abbrev Cache := List (PyStr × CacheEntry)

/-- Modelled from the spec: `cachetools.TTLCache` lookup is not in `src/`.
Spec section 4.2: entries whose TTL has elapsed "are treated as absent on
lookup", and section 8: "an entry inserted at time T is absent from `get` at
time ≥ T + TTL"; so a stored entry is returned only while `now < expires`. -/
def cacheGet (c : Cache) (key : PyStr) (now : Int) : Option (Nat × Payload) :=
  match c.find? (fun e => e.1 == key) with
  | some e => if now < e.2.expires then some e.2.value else none
  | none => none

/-- Modelled from the spec: `cachetools.TTLCache` insertion is not in `src/`.
Spec sections 4.2 and 5: expired entries are eligible for eviction; storing
an existing key replaces the stored value and resets its insertion time;
capacity eviction occurs on write, evicting the entry with the oldest
insertion time, so that the cache never holds more than `maxsize` entries. -/
def cachePut (maxsize : Nat) (ttl : Int) (c : Cache) (key : PyStr)
    (v : Nat × Payload) (now : Int) : Cache :=
  let live := c.filter (fun e => now < e.2.expires)
  let others := live.filter (fun e => !(e.1 == key))
  let room := if others.length < maxsize then others
              else others.drop (others.length + 1 - maxsize)
  room ++ [(key, ⟨v, now + ttl⟩)]

/-- The mutable state of the process: the response cache plus an
instrumentation counter of upstream fetches (one per `_forward_get` call). -/
structure SysState where
  cache : Cache
  fetchCount : Nat

/-- `_cached_forward` (source lines 62-65): the `@cached(cache=cache,
key=lambda path, params: _cache_key(path, params))` wrapper around
`_forward_get`.  Modelled from the spec for the wrapper itself (the
`cachetools.cached` decorator is not in `src/`; spec section 4.3: on cache
hit return the stored pair without contacting upstream, on miss call the
client, store the result — including failures — under the computed key, and
return it). -/
def forward (maxsize : Nat) (ttl : Int) (path : PyStr)
    (params : List (PyStr × PyStr)) (upstream : Nat → AttemptOutcome)
    (now : Int) (s : SysState) : (Nat × Payload) × SysState :=
  match cacheGet s.cache (_cache_key path params) now with
  | some v => (v, s)
  | none =>
    (_forward_get path params upstream,
     ⟨cachePut maxsize ttl s.cache (_cache_key path params)
        (_forward_get path params upstream) now, s.fetchCount + 1⟩)

/-! ### The `/weather` route (source lines 75-97) -/

/-- `request.args.get(name)`: first value for the name, if present. -/
def argsGet (args : List (PyStr × PyStr)) (name : PyStr) : Option PyStr :=
  (args.find? (fun e => e.1 == name)).map (fun e => e.2)

/-- Python truthiness of an optional string: `None` and `""` are falsy. -/
def truthy : Option PyStr → Bool
  | none => false
  | some s => !s.isEmpty

/-- Python's `a or b` on optional strings. -/
def pyOr (a b : Option PyStr) : Option PyStr :=
  if truthy a then a else b

/-- `forward_params.pop(name)`'s effect on the mapping: remove the name. -/
def popArg (args : List (PyStr × PyStr)) (name : PyStr) : List (PyStr × PyStr) :=
  args.filter (fun e => !(e.1 == name))

/-- `forward_params[name] = v`: replace in place if present, else append. -/
def setArg (args : List (PyStr × PyStr)) (name : PyStr) (v : PyStr) :
    List (PyStr × PyStr) :=
  if args.any (fun e => e.1 == name) then
    args.map (fun e => if e.1 == name then (name, v) else e)
  else args ++ [(name, v)]

/-- The statement `if "lat" in forward_params:
forward_params["latitude"] = forward_params.pop("lat")`. -/
def renameLatStep (args : List (PyStr × PyStr)) : List (PyStr × PyStr) :=
  match argsGet args ("lat".data) with
  | some v => setArg (popArg args ("lat".data)) ("latitude".data) v
  | none => args

/-- The statement `if "lon" in forward_params:
forward_params["longitude"] = forward_params.pop("lon")`. -/
def renameLonStep (args : List (PyStr × PyStr)) : List (PyStr × PyStr) :=
  match argsGet args ("lon".data) with
  | some v => setArg (popArg args ("lon".data)) ("longitude".data) v
  | none => args

/-- The parameter normalisation in `weather_proxy`: `lat` is renamed to
`latitude` and `lon` to `longitude` (note: the source never renames `long`). -/
def normalizeWeatherParams (args : List (PyStr × PyStr)) : List (PyStr × PyStr) :=
  renameLonStep (renameLatStep args)

/-- The 400 response body of `weather_proxy`. -/
def missingParametersPayload : Payload :=
  .json (.obj [("error", .str "missing_parameters"),
               ("detail", .str "latitude and longitude required (lat/lon)")])

/-- The value `lat` computed by `weather_proxy`:
`request.args.get("latitude") or request.args.get("lat")`. -/
def weatherLat (args : List (PyStr × PyStr)) : Option PyStr :=
  pyOr (argsGet args ("latitude".data)) (argsGet args ("lat".data))

/-- The value `lon` computed by `weather_proxy`: `request.args.get("longitude")
or request.args.get("lon") or request.args.get("long")`. -/
def weatherLon (args : List (PyStr × PyStr)) : Option PyStr :=
  pyOr (pyOr (argsGet args ("longitude".data)) (argsGet args ("lon".data)))
    (argsGet args ("long".data))

/-- `weather_proxy` (source lines 75-97): validate `latitude`/`lat` and
`longitude`/`lon`/`long` (empty strings are falsy, hence missing), answer 400
when absent, otherwise forward to upstream path `"forecast"` with the
normalised parameters. -/
def weather_proxy (maxsize : Nat) (ttl : Int) (args : List (PyStr × PyStr))
    (upstream : Nat → AttemptOutcome) (now : Int) (s : SysState) :
    (Nat × Payload) × SysState :=
  if !(truthy (weatherLat args)) || !(truthy (weatherLon args)) then
    ((400, missingParametersPayload), s)
  else
    forward maxsize ttl ("forecast".data) (normalizeWeatherParams args)
      upstream now s

/-- A sequence of cache insertions `(key, value, time)` applied in order. -/
def applyPuts (maxsize : Nat) (ttl : Int) : Cache → List (PyStr × (Nat × Payload) × Int) → Cache
  | c, [] => c
  | c, (k, v, t) :: ops => applyPuts maxsize ttl (cachePut maxsize ttl c k v t) ops

/-! ### Concrete network behaviours used in witnesses -/

/-- Upstream answers 503 three times, then 200 with a JSON body. -/
def outcomes503x3then200 : Nat → AttemptOutcome := fun i =>
  if i < 3 then .response ⟨503, .rawText "Service Unavailable"⟩
  else .response ⟨200, .jsonBody (.obj [("temp", .num 21)])⟩

/-- Upstream answers 503 on every attempt. -/
def outcomesAll503 : Nat → AttemptOutcome := fun _ =>
  .response ⟨503, .rawText "Service Unavailable"⟩

/-- Upstream answers 200 with a JSON body on every attempt. -/
def outcomesJson200 : Nat → AttemptOutcome := fun _ =>
  .response ⟨200, .jsonBody (.obj [("temp", .num 21)])⟩

/-- Upstream answers 200 with the non-JSON body `"OK"` on every attempt. -/
def outcomesRaw200 : Nat → AttemptOutcome := fun _ =>
  .response ⟨200, .rawText "OK"⟩

/-- The network fails on every attempt. -/
def outcomesNetFail : Nat → AttemptOutcome := fun _ =>
  .netError "connection refused"

/-- Upstream answers a non-retryable 404 on every attempt. -/
def outcomes404 : Nat → AttemptOutcome := fun _ =>
  .response ⟨404, .rawText "Not Found"⟩

/-! ### Infrastructure for the cache-key injectivity proof

`_cache_key path params = path ++ "|" ++ T` where `T` renders a tuple of
pairs of repr-ed strings.  Injectivity of the key reduces to two facts:
the rendering `pyReprTuple` is itself injective (shown via an explicit
decoder that inverts it), and no valid rendering has a proper suffix of the
form `"|" ++ (another valid rendering)` — otherwise two different
`(path, params)` splits could collide.  The latter is shown with a small
deterministic automaton that recognises renderings, and a finite
reachability argument on pairs of automaton states. -/

/-- The two repr delimiters. -/
inductive QuoteD where
  | squote | dquote
deriving DecidableEq, Fintype

/-- The delimiter character. -/
def quoteChar : QuoteD → Char
  | .squote => '\''
  | .dquote => '"'

/-- Character categories the rendering automaton distinguishes. -/
inductive CharCat where
  | lpar | rpar | comma | space | squote | dquote | backslash | other
deriving DecidableEq, Fintype

/-- Categorise a character. -/
def charCat (c : Char) : CharCat :=
  if c = '(' then .lpar else if c = ')' then .rpar
  else if c = ',' then .comma else if c = ' ' then .space
  else if c = '\'' then .squote else if c = '"' then .dquote
  else if c = '\\' then .backslash else .other

/-- The category of a delimiter. -/
def quoteCat : QuoteD → CharCat
  | .squote => .squote
  | .dquote => .dquote

/-- All character categories. -/
def allCats : List CharCat :=
  [.lpar, .rpar, .comma, .space, .squote, .dquote, .backslash, .other]

/-- States of the automaton recognising `pyReprTuple` outputs.  `first`
records whether the pair being read is the first of the tuple (a trailing
comma is required exactly for a 1-tuple). -/
inductive ReprState where
  | start | top0
  | kOpen (first : Bool) | kIn (q : QuoteD) (first : Bool) | kEsc (q : QuoteD) (first : Bool)
  | kEnd (first : Bool) | kC (first : Bool)
  | vOpen (first : Bool) | vIn (q : QuoteD) (first : Bool) | vEsc (q : QuoteD) (first : Bool)
  | vEnd (first : Bool)
  | pEnd (first : Bool) | pC (first : Bool)
  | next | acc
deriving DecidableEq, Fintype

/-- Transition function of the rendering automaton. -/
def reprStep : ReprState → CharCat → Option ReprState
  | .start, .lpar => some .top0
  | .top0, .rpar => some .acc
  | .top0, .lpar => some (.kOpen true)
  | .kOpen f, .squote => some (.kIn .squote f)
  | .kOpen f, .dquote => some (.kIn .dquote f)
  | .kIn q f, cc =>
    if cc = quoteCat q then some (.kEnd f)
    else if cc = .backslash then some (.kEsc q f)
    else some (.kIn q f)
  | .kEsc q f, .squote => some (.kIn q f)
  | .kEsc q f, .backslash => some (.kIn q f)
  | .kEnd f, .comma => some (.kC f)
  | .kC f, .space => some (.vOpen f)
  | .vOpen f, .squote => some (.vIn .squote f)
  | .vOpen f, .dquote => some (.vIn .dquote f)
  | .vIn q f, cc =>
    if cc = quoteCat q then some (.vEnd f)
    else if cc = .backslash then some (.vEsc q f)
    else some (.vIn q f)
  | .vEsc q f, .squote => some (.vIn q f)
  | .vEsc q f, .backslash => some (.vIn q f)
  | .vEnd f, .rpar => some (.pEnd f)
  | .pEnd f, .comma => some (.pC f)
  | .pEnd f, .rpar => if f then none else some .acc
  | .pC f, .rpar => if f then some .acc else none
  | .pC _, .space => some .next
  | .next, .lpar => some (.kOpen false)
  | _, _ => none

/-- Run the automaton from a state over a character list. -/
def reprRunFrom (st : ReprState) : List Char → Option ReprState
  | [] => some st
  | c :: cs =>
    match reprStep st (charCat c) with
    | some st2 => reprRunFrom st2 cs
    | none => none

/-- The automaton states that can consume a character of category `other`
(only string content can). -/
def insideStates : List ReprState :=
  [.kIn .squote true, .kIn .squote false, .kIn .dquote true, .kIn .dquote false,
   .vIn .squote true, .vIn .squote false, .vIn .dquote true, .vIn .dquote false]

/-- Joint transition of a pair of automaton states on a shared character. -/
def stepPair (p : ReprState × ReprState) (cc : CharCat) : Option (ReprState × ReprState) :=
  match reprStep p.1 cc, reprStep p.2 cc with
  | some a, some b => some (a, b)
  | _, _ => none

/-- Numeric code of an automaton state (0 to 33). -/
def stCode : ReprState → Nat
  | .start => 0
  | .top0 => 1
  | .kOpen false => 2
  | .kOpen true => 3
  | .kIn .squote false => 4
  | .kIn .squote true => 5
  | .kIn .dquote false => 6
  | .kIn .dquote true => 7
  | .kEsc .squote false => 8
  | .kEsc .squote true => 9
  | .kEsc .dquote false => 10
  | .kEsc .dquote true => 11
  | .kEnd false => 12
  | .kEnd true => 13
  | .kC false => 14
  | .kC true => 15
  | .vOpen false => 16
  | .vOpen true => 17
  | .vIn .squote false => 18
  | .vIn .squote true => 19
  | .vIn .dquote false => 20
  | .vIn .dquote true => 21
  | .vEsc .squote false => 22
  | .vEsc .squote true => 23
  | .vEsc .dquote false => 24
  | .vEsc .dquote true => 25
  | .vEnd false => 26
  | .vEnd true => 27
  | .pEnd false => 28
  | .pEnd true => 29
  | .pC false => 30
  | .pC true => 31
  | .next => 32
  | .acc => 33

/-- Bitset over pair codes `stCode a * 34 + stCode b` of all pairs of
automaton states jointly reachable from a pair `(inside-string, start)` on a
shared character stream (computed by breadth-first search over `stepPair`). -/
def rBits : Nat :=
  224033427095854566605120054887816872014416594491906124484476180922393110507169353199221084559758241762069794368052966614087034123182692101930514061300897026523474216588967701576557558032382367933131231382930287814697381313329984004338106980304702249579782635586235760675613970170745771570419272759583033347088087768020626846890975888632887377920

/-- Membership of a state pair in the jointly-reachable set. -/
def rMem (a b : ReprState) : Bool :=
  rBits.testBit (stCode a * 34 + stCode b)

/-- One joint transition preserves `rMem` (checked pointwise). -/
def stepOk (a b : ReprState) (cc : CharCat) : Bool :=
  match reprStep a cc, reprStep b cc with
  | some a2, some b2 => rMem a2 b2
  | _, _ => true

/-! ### A decoder inverting `pyReprTuple` (for injectivity) -/

/-- Read characters up to an unescaped delimiter `q`, undoing escapes;
returns the decoded content and the remainder after the delimiter. -/
def unescapeUntil (q : Char) : List Char → Option (PyStr × List Char)
  | [] => none
  | c :: cs =>
    if c = q then some ([], cs)
    else if c = '\\' then
      match cs with
      | [] => none
      | d :: ds =>
        match unescapeUntil q ds with
        | some (s, rest) => some (d :: s, rest)
        | none => none
    else
      match unescapeUntil q cs with
      | some (s, rest) => some (c :: s, rest)
      | none => none

/-- Decode one repr-ed string (either delimiter). -/
def parseStr : List Char → Option (PyStr × List Char)
  | [] => none
  | c :: cs => if c = '\'' ∨ c = '"' then unescapeUntil c cs else none

/-- Decode one rendered pair `('k', 'v')`. -/
def parsePairTok : List Char → Option ((PyStr × PyStr) × List Char)
  | [] => none
  | c :: cs =>
    if c = '(' then
      match parseStr cs with
      | some (k, rest1) =>
        match rest1 with
        | c1 :: c2 :: rest2 =>
          if c1 = ',' ∧ c2 = ' ' then
            match parseStr rest2 with
            | some (v, rest3) =>
              match rest3 with
              | c3 :: rest4 => if c3 = ')' then some ((k, v), rest4) else none
              | [] => none
            | none => none
          else none
        | _ => none
      | none => none
    else none

/-- Decode the continuation of a tuple after one or more pairs have been
read (accumulated in reverse in `acc`). -/
def parsePairsAux : Nat → List (PyStr × PyStr) → List Char → Option (List (PyStr × PyStr) × List Char)
  | _, _, [] => none
  | fuel, acc, c :: rest =>
    if c = ')' then some (acc.reverse, rest)
    else if c = ',' then
      match rest with
      | [] => none
      | c2 :: rest2 =>
        if c2 = ')' then some (acc.reverse, rest2)
        else if c2 = ' ' then
          match fuel with
          | 0 => none
          | fuel2 + 1 =>
            match parsePairTok rest2 with
            | some (p, rest3) => parsePairsAux fuel2 (p :: acc) rest3
            | none => none
        else none
    else none

/-- Decode a rendered tuple of pairs. -/
def parseTuple : List Char → Option (List (PyStr × PyStr) × List Char)
  | [] => none
  | c :: cs =>
    if c = '(' then
      match cs with
      | [] => none
      | c2 :: rest =>
        if c2 = ')' then some ([], rest)
        else
          match parsePairTok cs with
          | some (p, rest1) => parsePairsAux rest1.length [p] rest1
          | none => none
    else none


/-! ## Theorems -/

/-! ### Retry loop facts -/

/-- The retry loop performs at least one attempt. -/
theorem retryLoop_attempts_ge (method : String) (outcomes : Nat → AttemptOutcome) :
    ∀ rem i, i + 1 ≤ (retryLoop method outcomes i rem).2 := by
  intro rem
  induction rem with
  | zero =>
    intro i
    unfold retryLoop
    cases h : outcomes i with
    | netError m => simp
    | response r =>
      by_cases hr : is_retry method r.status = true
      · simp [hr]
      · simp [hr]
  | succ r ih =>
    intro i
    unfold retryLoop
    cases h : outcomes i with
    | netError m =>
      have h2 := ih (i + 1)
      simp only []
      omega
    | response resp =>
      by_cases hr : is_retry method resp.status = true
      · have h2 := ih (i + 1)
        simp only [hr, if_true]
        omega
      · simp [hr]

/-- The retry loop performs at most `rem + 1` further attempts. -/
theorem retryLoop_attempts_le (method : String) (outcomes : Nat → AttemptOutcome) :
    ∀ rem i, (retryLoop method outcomes i rem).2 ≤ i + rem + 1 := by
  intro rem
  induction rem with
  | zero =>
    intro i
    unfold retryLoop
    cases h : outcomes i with
    | netError m => simp
    | response r =>
      by_cases hr : is_retry method r.status = true
      · simp [hr]
      · simp [hr]
  | succ r ih =>
    intro i
    unfold retryLoop
    cases h : outcomes i with
    | netError m =>
      have h2 := ih (i + 1)
      simp only []
      omega
    | response resp =>
      by_cases hr : is_retry method resp.status = true
      · have h2 := ih (i + 1)
        simp only [hr, if_true]
        omega
      · simp [hr]

/-- When every attempt yields a 503 response, the retry loop exhausts its
budget and raises `MaxRetryError`. -/
theorem retryLoop_all503 (outcomes : Nat → AttemptOutcome)
    (hall : ∀ j, ∃ b, outcomes j = .response ⟨503, b⟩) :
    ∀ rem i, (retryLoop "GET" outcomes i rem).1
      = .error (.retryError ("Max retries exceeded with status " ++ toString 503)) := by
  intro rem
  induction rem with
  | zero =>
    intro i
    obtain ⟨b, hb⟩ := hall i
    unfold retryLoop
    rw [hb]
    simp [is_retry, status_forcelist, allowed_methods]
  | succ r ih =>
    intro i
    obtain ⟨b, hb⟩ := hall i
    unfold retryLoop
    rw [hb]
    simpa [is_retry, status_forcelist, allowed_methods] using ih (i + 1)

/-! ### Cache facts -/

/-- `find?` skips a prefix in which nothing matches. -/
theorem find?_append_of_none {α : Type} {p : α → Bool} {l1 l2 : List α}
    (h : l1.find? p = none) : (l1 ++ l2).find? p = l2.find? p := by
  induction l1 with
  | nil => rfl
  | cons a l ih =>
    cases hpa : p a with
    | true => simp [List.find?, hpa] at h
    | false =>
      simp only [List.find?, hpa] at h
      simp only [List.cons_append, List.find?, hpa]
      exact ih h

/-- Looking up the key just stored by `cachePut`: the stored value is
returned while `now + ttl` has not been reached, and nothing afterwards. -/
theorem cacheGet_cachePut_same (maxsize : Nat) (ttl : Int) (c : Cache)
    (key : PyStr) (v : Nat × Payload) (now t : Int) :
    cacheGet (cachePut maxsize ttl c key v now) key t
      = if t < now + ttl then some v else none := by
  unfold cacheGet cachePut
  have hothers : ∀ e ∈ (c.filter fun e => now < e.2.expires).filter
      (fun e => !(e.1 == key)), (e.1 == key) = false := by
    intro e he
    have := List.of_mem_filter he
    simpa using this
  have hroom : ((if ((c.filter fun e => now < e.2.expires).filter
        (fun e => !(e.1 == key))).length < maxsize then
        ((c.filter fun e => now < e.2.expires).filter (fun e => !(e.1 == key)))
      else
        ((c.filter fun e => now < e.2.expires).filter
          (fun e => !(e.1 == key))).drop
          (((c.filter fun e => now < e.2.expires).filter
            (fun e => !(e.1 == key))).length + 1 - maxsize)).find?
      (fun e => e.1 == key)) = none := by
    rw [List.find?_eq_none]
    intro x hx
    split at hx
    · simp [hothers x hx]
    · have hx2 : x ∈ (c.filter fun e => now < e.2.expires).filter
        (fun e => !(e.1 == key)) := List.mem_of_mem_drop hx
      simp [hothers x hx2]
  rw [find?_append_of_none hroom]
  simp [List.find?]

/-! ### Claim C4 -/

/-- C4: for every path and params, when retries are exhausted or an
unrecoverable network error occurs (i.e. the session-level GET results in a
`RequestException` rather than a response), `_forward_get` returns the
synthetic failure `(502, {error: "upstream_error", detail: str(e)})` instead
of raising. -/
theorem c4_forward_get_never_raises (path : PyStr) (params : List (PyStr × PyStr))
    (outcomes : Nat → AttemptOutcome) (e : RequestException)
    (herr : (session_get "GET" outcomes).1 = .error e) :
    _forward_get path params outcomes = (502, upstreamErrorPayload (excStr e)) := by
  unfold _forward_get
  rw [herr]
  rfl

/-- C4 witness: a network failure on every attempt yields the synthetic
502 `upstream_error` result. -/
theorem c4_forward_get_never_raises_witness :
    (session_get "GET" outcomesNetFail).1
        = .error (.retryError "Max retries exceeded: connection refused") ∧
    _forward_get [] [] outcomesNetFail
        = (502, upstreamErrorPayload "Max retries exceeded: connection refused") :=
  ⟨rfl, c4_forward_get_never_raises [] [] outcomesNetFail
    (.retryError "Max retries exceeded: connection refused") rfl⟩

/-! ### Claim C10 -/

/-- C10: for every successful upstream response (status below 400, so
`raise_for_status` does not raise) whose body is not parseable as JSON,
`_forward_get` returns the raw text together with the upstream status code;
the call does not fail merely because the body is not JSON. -/
theorem c10_raw_text_passthrough (path : PyStr) (params : List (PyStr × PyStr))
    (outcomes : Nat → AttemptOutcome) (r : HttpResponse) (s : String)
    (hok : (session_get "GET" outcomes).1 = .ok r)
    (hstatus : r.status < 400)
    (hbody : r.body = .rawText s) :
    _forward_get path params outcomes = (r.status, .text s) := by
  unfold _forward_get
  rw [hok]
  have hrfs : raise_for_status r = .ok r := by
    unfold raise_for_status
    rw [if_neg (by omega)]
  show (match raise_for_status r with
        | .ok resp =>
          match resp.body with
          | .jsonBody v => (resp.status, Payload.json v)
          | .rawText s2 => (resp.status, Payload.text s2)
        | .error e => (502, upstreamErrorPayload (excStr e))) = (r.status, Payload.text s)
  rw [hrfs]
  show (match r.body with
        | .jsonBody v => (r.status, Payload.json v)
        | .rawText s2 => (r.status, Payload.text s2)) = (r.status, Payload.text s)
  rw [hbody]

/-- C10 witness: a 200 response with the non-JSON body `"OK"` yields
`(200, "OK")`. -/
theorem c10_raw_text_passthrough_witness :
    (session_get "GET" outcomesRaw200).1 = .ok ⟨200, .rawText "OK"⟩ ∧
    _forward_get [] [] outcomesRaw200 = (200, .text "OK") :=
  ⟨rfl, c10_raw_text_passthrough [] [] outcomesRaw200 ⟨200, .rawText "OK"⟩ "OK"
    rfl (by decide) rfl⟩

/-! ### Claim C8 -/

/-- C8: an upstream non-2xx outcome is either propagated with upstream's own
status or folded into the synthetic 502 `upstream_error` result; the embedded
code always folds: a non-retryable 4xx/5xx response that reaches
`raise_for_status` becomes `(502, upstream_error)` via `HTTPError`, and a
retry-exhausted failure becomes `(502, upstream_error)` via the session
exception. -/
theorem c8_upstream_http_error_folded (path : PyStr) (params : List (PyStr × PyStr))
    (outcomes : Nat → AttemptOutcome) :
    (∀ r : HttpResponse, (session_get "GET" outcomes).1 = .ok r →
        400 ≤ r.status → r.status < 600 →
        ((_forward_get path params outcomes).1 = r.status ∨
          _forward_get path params outcomes
            = (502, upstreamErrorPayload ("HTTP Error " ++ toString r.status)))) ∧
    (∀ e : RequestException, (session_get "GET" outcomes).1 = .error e →
        _forward_get path params outcomes = (502, upstreamErrorPayload (excStr e))) := by
  constructor
  · intro r hok h4 h6
    right
    unfold _forward_get
    rw [hok]
    have hrfs : raise_for_status r
        = .error (.httpError r.status ("HTTP Error " ++ toString r.status)) := by
      unfold raise_for_status
      rw [if_pos ⟨h4, h6⟩]
    show (match raise_for_status r with
          | .ok resp =>
            match resp.body with
            | .jsonBody v => (resp.status, Payload.json v)
            | .rawText s2 => (resp.status, Payload.text s2)
          | .error e => (502, upstreamErrorPayload (excStr e)))
        = (502, upstreamErrorPayload ("HTTP Error " ++ toString r.status))
    rw [hrfs]
    rfl
  · intro e herr
    unfold _forward_get
    rw [herr]
    rfl

/-- C8 witness: a 404 response is folded into `(502, upstream_error)`. -/
theorem c8_upstream_http_error_folded_witness :
    (session_get "GET" outcomes404).1 = .ok ⟨404, .rawText "Not Found"⟩ ∧
    ((_forward_get [] [] outcomes404).1 = 404 ∨
      _forward_get [] [] outcomes404
        = (502, upstreamErrorPayload ("HTTP Error " ++ toString 404))) :=
  ⟨rfl, (c8_upstream_http_error_folded [] [] outcomes404).1
    ⟨404, .rawText "Not Found"⟩ rfl (by decide) (by decide)⟩

/-! ### Claim C3 -/

/-- C3 counterexample: the claim says the client performs "up to 3 total
attempts", but `Retry(total=3)` allows 3 retries after the initial attempt:
with three 503 responses followed by a 200, a fourth attempt is performed
(and its 200 response returned). -/
theorem c3_counterexample :
    ¬ (∀ outcomes : Nat → AttemptOutcome, (session_get "GET" outcomes).2 ≤ 3) := by
  intro h
  have h4 : (session_get "GET" outcomes503x3then200).2 = 4 := rfl
  have h3 := h outcomes503x3then200
  omega

/-- C3 (amended): on network failure or a status in
{429, 500, 502, 503, 504}, the client retries the GET up to 3 times, so up
to 4 total attempts are performed (and at least one); a retryable first
outcome always leads to a second attempt; and only GET requests have
retryable statuses under `allowed_methods={"GET"}`. -/
theorem c3_retry_policy_amended :
    (∀ outcomes : Nat → AttemptOutcome,
        1 ≤ (session_get "GET" outcomes).2 ∧ (session_get "GET" outcomes).2 ≤ 4) ∧
    (∀ outcomes : Nat → AttemptOutcome, ∀ r : HttpResponse,
        outcomes 0 = .response r → is_retry "GET" r.status = true →
        2 ≤ (session_get "GET" outcomes).2) ∧
    (∀ outcomes : Nat → AttemptOutcome, ∀ msg : String,
        outcomes 0 = .netError msg → 2 ≤ (session_get "GET" outcomes).2) ∧
    (∀ (method : String) (status : Nat), method ≠ "GET" →
        is_retry method status = false) := by
  refine ⟨fun outcomes => ⟨?_, ?_⟩, fun outcomes r h0 hr => ?_,
    fun outcomes msg h0 => ?_, fun method status hm => ?_⟩
  · simpa using retryLoop_attempts_ge "GET" outcomes retry_total 0
  · have := retryLoop_attempts_le "GET" outcomes retry_total 0
    simp only [retry_total] at this
    simpa [session_get, retry_total] using this
  · show 2 ≤ (retryLoop "GET" outcomes 0 retry_total).2
    unfold retryLoop
    rw [h0]
    simp only [hr, if_true, retry_total]
    have := retryLoop_attempts_ge "GET" outcomes 2 (0 + 1)
    omega
  · show 2 ≤ (retryLoop "GET" outcomes 0 retry_total).2
    unfold retryLoop
    rw [h0]
    simp only [retry_total]
    have := retryLoop_attempts_ge "GET" outcomes 2 (0 + 1)
    omega
  · unfold is_retry
    have hmem : (method ∈ allowed_methods) = False := by
      simp [allowed_methods, hm]
    simp [hmem]

/-- C3 witness: the amended bounds and the only-GET configuration at
concrete inputs. -/
theorem c3_retry_policy_amended_witness :
    (1 ≤ (session_get "GET" outcomesAll503).2 ∧ (session_get "GET" outcomesAll503).2 ≤ 4) ∧
    2 ≤ (session_get "GET" outcomesAll503).2 ∧
    is_retry "POST" 503 = false :=
  ⟨c3_retry_policy_amended.1 outcomesAll503,
   c3_retry_policy_amended.2.1 outcomesAll503 ⟨503, .rawText "Service Unavailable"⟩
     rfl rfl,
   c3_retry_policy_amended.2.2.2 "POST" 503 (by decide)⟩

/-! ### Claim C5 -/

/-- C5: when upstream returns 503 on every attempt, `_forward_get` produces
the synthetic `(502, upstream_error)` result, the coordinator stores it in
the cache under the key computed for `(path, params)` exactly like a
success, and lookups within the TTL window are served from it. -/
theorem c5_failure_results_cached (maxsize : Nat) (ttl : Int) (path : PyStr)
    (params : List (PyStr × PyStr)) (upstream : Nat → AttemptOutcome)
    (t0 t1 : Int) (s : SysState)
    (hall : ∀ j, ∃ b, upstream j = .response ⟨503, b⟩)
    (hmiss : cacheGet s.cache (_cache_key path params) t0 = none)
    (h01 : t0 ≤ t1) (h1 : t1 < t0 + ttl) :
    (forward maxsize ttl path params upstream t0 s).1
        = (502, upstreamErrorPayload ("Max retries exceeded with status " ++ toString 503)) ∧
    cacheGet (forward maxsize ttl path params upstream t0 s).2.cache
        (_cache_key path params) t1
        = some (502, upstreamErrorPayload ("Max retries exceeded with status " ++ toString 503)) := by
  have hfg : _forward_get path params upstream
      = (502, upstreamErrorPayload ("Max retries exceeded with status " ++ toString 503)) := by
    unfold _forward_get
    rw [show (session_get "GET" upstream).1
        = .error (.retryError ("Max retries exceeded with status " ++ toString 503)) from
      retryLoop_all503 upstream hall retry_total 0]
    rfl
  have hfw : forward maxsize ttl path params upstream t0 s
      = ((502, upstreamErrorPayload ("Max retries exceeded with status " ++ toString 503)),
         ⟨cachePut maxsize ttl s.cache (_cache_key path params)
            (502, upstreamErrorPayload ("Max retries exceeded with status " ++ toString 503)) t0,
          s.fetchCount + 1⟩) := by
    unfold forward
    rw [hmiss, hfg]
  rw [hfw]
  refine ⟨rfl, ?_⟩
  show cacheGet (cachePut maxsize ttl s.cache (_cache_key path params)
      (502, upstreamErrorPayload ("Max retries exceeded with status " ++ toString 503)) t0)
      (_cache_key path params) t1 = _
  rw [cacheGet_cachePut_same]
  rw [if_pos h1]

/-- C5 witness: three-plus consecutive 503s produce a cached 502 result
served again within the TTL window. -/
theorem c5_failure_results_cached_witness :
    (forward 1024 60 [] [] outcomesAll503 0 ⟨[], 0⟩).1
        = (502, upstreamErrorPayload ("Max retries exceeded with status " ++ toString 503)) ∧
    cacheGet (forward 1024 60 [] [] outcomesAll503 0 ⟨[], 0⟩).2.cache
        (_cache_key [] []) 30
        = some (502, upstreamErrorPayload ("Max retries exceeded with status " ++ toString 503)) :=
  c5_failure_results_cached 1024 60 [] [] outcomesAll503 0 30 ⟨[], 0⟩
    (fun _ => ⟨.rawText "Service Unavailable", rfl⟩) rfl (by omega) (by omega)

/-! ### Claim C6 -/

/-- C6: a cache entry inserted at time `t` is absent from `cacheGet` at
every time at or after `t + ttl` (spec-modelled `TTLCache` lookup). -/
theorem c6_ttl_expiry (maxsize : Nat) (ttl : Int) (c : Cache) (key : PyStr)
    (v : Nat × Payload) (t now : Int) (h : t + ttl ≤ now) :
    cacheGet (cachePut maxsize ttl c key v t) key now = none := by
  rw [cacheGet_cachePut_same]
  rw [if_neg (by omega)]

/-- C6 witness: an entry inserted at time 0 with TTL 60 is absent at time 60. -/
theorem c6_ttl_expiry_witness :
    (0 : Int) + 60 ≤ 60 ∧
    cacheGet (cachePut 1024 60 [] [] (200, .text "OK") 0) [] 60 = none :=
  ⟨by omega, c6_ttl_expiry 1024 60 [] [] (200, .text "OK") 0 60 (by omega)⟩

/-! ### Claim C7 -/

/-- The size-and-uniqueness invariant of the cache is preserved by `cachePut`. -/
theorem cachePut_preserves_inv (maxsize : Nat) (ttl : Int) (c : Cache)
    (key : PyStr) (v : Nat × Payload) (now : Int) (hms : 0 < maxsize)
    (hnd : (c.map (fun e => e.1)).Nodup) :
    (cachePut maxsize ttl c key v now).length ≤ maxsize ∧
      ((cachePut maxsize ttl c key v now).map (fun e => e.1)).Nodup := by
  unfold cachePut
  have hsub1 : (c.filter fun e => now < e.2.expires).Sublist c := List.filter_sublist c
  have hsub2 : ((c.filter fun e => now < e.2.expires).filter
      (fun e => !(e.1 == key))).Sublist c :=
    (List.filter_sublist _).trans hsub1
  have hothers : ∀ e ∈ (c.filter fun e => now < e.2.expires).filter
      (fun e => !(e.1 == key)), (e.1 == key) = false := by
    intro e he
    have := List.of_mem_filter he
    simpa using this
  constructor
  · rw [List.length_append]
    split
    · simp only [List.length_cons, List.length_nil]
      omega
    · rw [List.length_drop]
      simp only [List.length_cons, List.length_nil]
      omega
  · rw [List.map_append]
    apply List.Nodup.append
    · split
      · exact hnd.sublist (hsub2.map _)
      · exact hnd.sublist (((List.drop_sublist _ _).trans hsub2).map _)
    · simp
    · intro a ha hb
      simp only [List.map_cons, List.map_nil, List.mem_singleton] at hb
      rcases List.mem_map.mp ha with ⟨e, he, hek⟩
      have he2 : e ∈ (c.filter fun e => now < e.2.expires).filter
          (fun e => !(e.1 == key)) := by
        revert he
        split
        · exact fun he => he
        · exact fun he => List.mem_of_mem_drop he
      have h3 := hothers e he2
      rw [show e.1 = key from hek.trans hb] at h3
      simp at h3

/-- C7: after any sequence of insertions the cache holds at most `maxsize`
entries and each key maps to at most one entry. -/
theorem c7_capacity_invariant (maxsize : Nat) (ttl : Int)
    (ops : List (PyStr × (Nat × Payload) × Int)) (hms : 0 < maxsize) :
    (applyPuts maxsize ttl [] ops).length ≤ maxsize ∧
      ((applyPuts maxsize ttl [] ops).map (fun e => e.1)).Nodup := by
  suffices h : ∀ c : Cache, c.length ≤ maxsize → ((c.map (fun e => e.1)).Nodup) →
      (applyPuts maxsize ttl c ops).length ≤ maxsize ∧
        ((applyPuts maxsize ttl c ops).map (fun e => e.1)).Nodup by
    exact h [] (by simp) (by simp)
  induction ops with
  | nil =>
    intro c h1 h2
    exact ⟨h1, h2⟩
  | cons op rest ih =>
    intro c h1 h2
    obtain ⟨k, v, t⟩ := op
    have h3 := cachePut_preserves_inv maxsize ttl c k v t hms h2
    exact ih (cachePut maxsize ttl c k v t) h3.1 h3.2

/-- C7 witness: inserting three distinct keys into a cache of capacity 2
leaves at most 2 entries with pairwise distinct keys. -/
theorem c7_capacity_invariant_witness :
    (0 : Nat) < 2 ∧
    (applyPuts 2 60 [] [(['a'], (200, .text "x"), 0), (['b'], (200, .text "y"), 1),
        (['c'], (200, .text "z"), 2)]).length ≤ 2 ∧
    ((applyPuts 2 60 [] [(['a'], (200, .text "x"), 0), (['b'], (200, .text "y"), 1),
        (['c'], (200, .text "z"), 2)]).map (fun e => e.1)).Nodup :=
  ⟨by omega, c7_capacity_invariant 2 60
    [(['a'], (200, .text "x"), 0), (['b'], (200, .text "y"), 1),
     (['c'], (200, .text "z"), 2)] (by omega)⟩

/-! ### Claim C1 -/

/-- C1: after a first `forward(path, params)` call that stores its result in
the cache (a miss at time `t0`), a second `forward` call with the same path
and params at any time `t1` within the TTL window returns the identical
`(statusCode, payload)` pair and the identical state — in particular the
upstream fetch counter is unchanged, so no second upstream fetch happens
(the second network behaviour `upstream2` is arbitrary and unused). -/
theorem c1_second_call_hits_cache (maxsize : Nat) (ttl : Int) (path : PyStr)
    (params : List (PyStr × PyStr)) (upstream1 upstream2 : Nat → AttemptOutcome)
    (t0 t1 : Int) (s : SysState)
    (hmiss : cacheGet s.cache (_cache_key path params) t0 = none)
    (h01 : t0 ≤ t1) (h1 : t1 < t0 + ttl) :
    forward maxsize ttl path params upstream2 t1
        (forward maxsize ttl path params upstream1 t0 s).2
      = forward maxsize ttl path params upstream1 t0 s := by
  have hfw : forward maxsize ttl path params upstream1 t0 s
      = (_forward_get path params upstream1,
         ⟨cachePut maxsize ttl s.cache (_cache_key path params)
            (_forward_get path params upstream1) t0, s.fetchCount + 1⟩) := by
    unfold forward
    rw [hmiss]
  rw [hfw]
  show forward maxsize ttl path params upstream2 t1
      (⟨cachePut maxsize ttl s.cache (_cache_key path params)
          (_forward_get path params upstream1) t0, s.fetchCount + 1⟩ : SysState) = _
  unfold forward
  show (match cacheGet (cachePut maxsize ttl s.cache (_cache_key path params)
          (_forward_get path params upstream1) t0) (_cache_key path params) t1 with
        | some v => (v, (⟨cachePut maxsize ttl s.cache (_cache_key path params)
            (_forward_get path params upstream1) t0, s.fetchCount + 1⟩ : SysState))
        | none => _) = _
  rw [cacheGet_cachePut_same]
  rw [if_pos h1]

/-- C1 witness: the scenario of the spec — `forward("forecast",
{latitude: "10", longitude: "20"})` with upstream returning 200 JSON; a
second call 30 seconds later (TTL 60) returns the identical result and
state, with any second network behaviour. -/
theorem c1_second_call_hits_cache_witness :
    cacheGet (⟨[], 0⟩ : SysState).cache
        (_cache_key "forecast".data
          [("latitude".data, "10".data), ("longitude".data, "20".data)]) 0 = none ∧
    forward 1024 60 "forecast".data
        [("latitude".data, "10".data), ("longitude".data, "20".data)]
        outcomesNetFail 30
        (forward 1024 60 "forecast".data
          [("latitude".data, "10".data), ("longitude".data, "20".data)]
          outcomesJson200 0 ⟨[], 0⟩).2
      = forward 1024 60 "forecast".data
          [("latitude".data, "10".data), ("longitude".data, "20".data)]
          outcomesJson200 0 ⟨[], 0⟩ :=
  ⟨rfl, c1_second_call_hits_cache 1024 60 "forecast".data
    [("latitude".data, "10".data), ("longitude".data, "20".data)]
    outcomesJson200 outcomesNetFail 0 30 ⟨[], 0⟩ rfl (by omega) (by omega)⟩

/-! ### Args-mapping facts (for the `/weather` route) -/

/-- After `pop(n)`, the name `n` is absent. -/
theorem argsGet_popArg_self (l : List (PyStr × PyStr)) (n : PyStr) :
    argsGet (popArg l n) n = none := by
  induction l with
  | nil => rfl
  | cons e l ih =>
    unfold popArg at ih ⊢
    cases he : (e.1 == n) with
    | true => simpa [List.filter_cons, he] using ih
    | false =>
      simp only [List.filter_cons, he, Bool.not_false, if_pos]
      unfold argsGet at ih ⊢
      simpa [List.find?, he] using ih

/-- `pop(n)` does not affect other names. -/
theorem argsGet_popArg_ne (l : List (PyStr × PyStr)) (n m : PyStr) (h : m ≠ n) :
    argsGet (popArg l n) m = argsGet l m := by
  induction l with
  | nil => rfl
  | cons e l ih =>
    unfold popArg at ih ⊢
    cases he : (e.1 == n) with
    | true =>
      have hem : (e.1 == m) = false := by
        have he1 : e.1 = n := by simpa using he
        simp [he1, Ne.symm h]
      simp only [List.filter_cons, he, Bool.not_true, Bool.false_eq_true,
        if_neg, not_false_iff]
      unfold argsGet at ih ⊢
      rw [ih]
      simp [List.find?, hem]
    | false =>
      simp only [List.filter_cons, he, Bool.not_false, if_pos]
      unfold argsGet at ih ⊢
      cases hem : (e.1 == m) with
      | true => simp [List.find?, hem]
      | false => simpa [List.find?, hem] using ih

/-- Replacing the entries named `n` in place makes lookup of `n` yield the
new value, provided some entry is named `n`. -/
theorem argsGet_map_update_self (l : List (PyStr × PyStr)) (n v : PyStr)
    (hany : l.any (fun e => e.1 == n) = true) :
    argsGet (l.map (fun e => if e.1 == n then (n, v) else e)) n = some v := by
  induction l with
  | nil => simp at hany
  | cons e l ih =>
    cases he : (e.1 == n) with
    | true => simp [argsGet, List.find?, he]
    | false =>
      have hany2 : l.any (fun e => e.1 == n) = true := by
        simpa [he] using hany
      have ih2 := ih hany2
      unfold argsGet at ih2 ⊢
      simpa [List.find?, he] using ih2

/-- Replacing the entries named `n` in place does not affect other names. -/
theorem argsGet_map_update_ne (l : List (PyStr × PyStr)) (n m v : PyStr)
    (h : m ≠ n) :
    argsGet (l.map (fun e => if e.1 == n then (n, v) else e)) m = argsGet l m := by
  induction l with
  | nil => rfl
  | cons e l ih =>
    cases he : (e.1 == n) with
    | true =>
      have he1 : e.1 = n := by simpa using he
      have hem : (e.1 == m) = false := by simp [he1, Ne.symm h]
      have hnm : ((n : PyStr) == m) = false := by simp [Ne.symm h]
      unfold argsGet at ih ⊢
      simpa [List.find?, he, hem, hnm] using ih
    | false =>
      unfold argsGet at ih ⊢
      cases hem : (e.1 == m) with
      | true => simp [List.find?, he, hem]
      | false => simpa [List.find?, he, hem] using ih

/-- Appending a new entry named `n` makes lookup of `n` yield it when no
existing entry is named `n`. -/
theorem argsGet_append_single_self (l : List (PyStr × PyStr)) (n v : PyStr)
    (hany : l.any (fun e => e.1 == n) = false) :
    argsGet (l ++ [(n, v)]) n = some v := by
  induction l with
  | nil => simp [argsGet, List.find?]
  | cons e l ih =>
    have he : (e.1 == n) = false := by
      by_contra hc
      simp [eq_true_of_ne_false hc] at hany
    have hany2 : l.any (fun e => e.1 == n) = false := by
      simpa [he] using hany
    have ih2 := ih hany2
    unfold argsGet at ih2 ⊢
    simpa [List.find?, he] using ih2

/-- Appending a new entry named `n` does not affect other names. -/
theorem argsGet_append_single_ne (l : List (PyStr × PyStr)) (n m v : PyStr)
    (h : m ≠ n) :
    argsGet (l ++ [(n, v)]) m = argsGet l m := by
  have hnm : ((n : PyStr) == m) = false := by simp [Ne.symm h]
  induction l with
  | nil => simp [argsGet, List.find?, hnm]
  | cons e l ih =>
    unfold argsGet at ih ⊢
    cases hem : (e.1 == m) with
    | true => simp [List.find?, hem]
    | false => simpa [List.find?, hem] using ih

/-- After `args[n] = v`, looking up `n` yields `v`. -/
theorem argsGet_setArg_self (l : List (PyStr × PyStr)) (n : PyStr) (v : PyStr) :
    argsGet (setArg l n v) n = some v := by
  unfold setArg
  split
  · rename_i hany
    exact argsGet_map_update_self l n v hany
  · rename_i hany
    exact argsGet_append_single_self l n v (Bool.not_eq_true _ ▸ eq_false_of_ne_true hany)

/-- `args[n] = v` does not affect other names. -/
theorem argsGet_setArg_ne (l : List (PyStr × PyStr)) (n m : PyStr) (v : PyStr)
    (h : m ≠ n) :
    argsGet (setArg l n v) m = argsGet l m := by
  unfold setArg
  split
  · exact argsGet_map_update_ne l n m v h
  · exact argsGet_append_single_ne l n m v h

/-- The `lat` step does not affect names other than `lat` and `latitude`. -/
theorem renameLatStep_other (args : List (PyStr × PyStr)) (m : PyStr)
    (h1 : m ≠ "lat".data) (h2 : m ≠ "latitude".data) :
    argsGet (renameLatStep args) m = argsGet args m := by
  unfold renameLatStep
  split
  · rw [argsGet_setArg_ne _ _ _ _ h2, argsGet_popArg_ne _ _ _ h1]
  · rfl

/-- The `lon` step does not affect names other than `lon` and `longitude`. -/
theorem renameLonStep_other (args : List (PyStr × PyStr)) (m : PyStr)
    (h1 : m ≠ "lon".data) (h2 : m ≠ "longitude".data) :
    argsGet (renameLonStep args) m = argsGet args m := by
  unfold renameLonStep
  split
  · rw [argsGet_setArg_ne _ _ _ _ h2, argsGet_popArg_ne _ _ _ h1]
  · rfl

/-- The normalisation renames a supplied `lat` to `latitude` and removes
`lat`. -/
theorem normalize_renames_lat (args : List (PyStr × PyStr)) (v : PyStr)
    (h : argsGet args ("lat".data) = some v) :
    argsGet (normalizeWeatherParams args) ("latitude".data) = some v ∧
    argsGet (normalizeWeatherParams args) ("lat".data) = none := by
  have hstep : renameLatStep args = setArg (popArg args ("lat".data)) ("latitude".data) v := by
    unfold renameLatStep
    rw [h]
  unfold normalizeWeatherParams
  rw [hstep]
  constructor
  · rw [renameLonStep_other _ _ (by decide) (by decide)]
    exact argsGet_setArg_self _ _ _
  · rw [renameLonStep_other _ _ (by decide) (by decide)]
    rw [argsGet_setArg_ne _ _ _ _ (by decide)]
    exact argsGet_popArg_self _ _

/-- The normalisation renames a supplied `lon` to `longitude` and removes
`lon`. -/
theorem normalize_renames_lon (args : List (PyStr × PyStr)) (v : PyStr)
    (h : argsGet args ("lon".data) = some v) :
    argsGet (normalizeWeatherParams args) ("longitude".data) = some v ∧
    argsGet (normalizeWeatherParams args) ("lon".data) = none := by
  have hlon : argsGet (renameLatStep args) ("lon".data) = some v := by
    rw [renameLatStep_other _ _ (by decide) (by decide)]
    exact h
  have hstep : renameLonStep (renameLatStep args)
      = setArg (popArg (renameLatStep args) ("lon".data)) ("longitude".data) v := by
    unfold renameLonStep
    rw [hlon]
  unfold normalizeWeatherParams
  rw [hstep]
  constructor
  · exact argsGet_setArg_self _ _ _
  · rw [argsGet_setArg_ne _ _ _ _ (by decide)]
    exact argsGet_popArg_self _ _

/-- The normalisation never touches the `long` alias: it is forwarded under
its own name. -/
theorem normalize_keeps_long (args : List (PyStr × PyStr)) :
    argsGet (normalizeWeatherParams args) ("long".data)
      = argsGet args ("long".data) := by
  unfold normalizeWeatherParams
  rw [renameLonStep_other _ _ (by decide) (by decide)]
  rw [renameLatStep_other _ _ (by decide) (by decide)]

/-! ### Claim C9 -/

/-- C9 counterexample: with `latitude=10&long=20` the request passes
validation and is forwarded, but the forwarded mapping still contains the
alias `long` and no `longitude` entry: the `long` alias is never renamed by
the source (only `lat` and `lon` are). -/
theorem c9_counterexample :
    weather_proxy 1024 60 [("latitude".data, "10".data), ("long".data, "20".data)]
        outcomesJson200 0 ⟨[], 0⟩
      = forward 1024 60 "forecast".data
          [("latitude".data, "10".data), ("long".data, "20".data)]
          outcomesJson200 0 ⟨[], 0⟩ ∧
    argsGet (normalizeWeatherParams
        [("latitude".data, "10".data), ("long".data, "20".data)])
        ("longitude".data) = none ∧
    argsGet (normalizeWeatherParams
        [("latitude".data, "10".data), ("long".data, "20".data)])
        ("long".data) = some ("20".data) := by
  refine ⟨?_, by decide, by decide⟩
  rfl

/-- C9 (amended): `/weather` answers 400 `missing_parameters` when the
`latitude`/`lat` chain or the `longitude`/`lon`/`long` chain yields no
(non-empty) value; otherwise it forwards to upstream path `"forecast"` with
the normalised mapping, in which `lat` is renamed to `latitude` and `lon` to
`longitude`, while the accepted alias `long` is forwarded under its own
name. -/
theorem c9_weather_route_amended :
    (∀ (maxsize : Nat) (ttl : Int) (args : List (PyStr × PyStr))
        (upstream : Nat → AttemptOutcome) (now : Int) (s : SysState),
        (!(truthy (weatherLat args)) || !(truthy (weatherLon args))) = true →
        weather_proxy maxsize ttl args upstream now s
          = ((400, missingParametersPayload), s)) ∧
    (∀ (maxsize : Nat) (ttl : Int) (args : List (PyStr × PyStr))
        (upstream : Nat → AttemptOutcome) (now : Int) (s : SysState),
        (!(truthy (weatherLat args)) || !(truthy (weatherLon args))) = false →
        weather_proxy maxsize ttl args upstream now s
          = forward maxsize ttl ("forecast".data) (normalizeWeatherParams args)
              upstream now s) ∧
    (∀ (args : List (PyStr × PyStr)) (v : PyStr),
        argsGet args ("lat".data) = some v →
        argsGet (normalizeWeatherParams args) ("latitude".data) = some v ∧
        argsGet (normalizeWeatherParams args) ("lat".data) = none) ∧
    (∀ (args : List (PyStr × PyStr)) (v : PyStr),
        argsGet args ("lon".data) = some v →
        argsGet (normalizeWeatherParams args) ("longitude".data) = some v ∧
        argsGet (normalizeWeatherParams args) ("lon".data) = none) ∧
    (∀ args : List (PyStr × PyStr),
        argsGet (normalizeWeatherParams args) ("long".data)
          = argsGet args ("long".data)) := by
  refine ⟨?_, ?_, normalize_renames_lat, normalize_renames_lon, normalize_keeps_long⟩
  · intro maxsize ttl args upstream now s h
    unfold weather_proxy
    rw [h]
    rfl
  · intro maxsize ttl args upstream now s h
    unfold weather_proxy
    rw [h]
    rfl

/-- C9 witness: a request with no geolocation parameters is answered 400;
a request with `lat`/`lon` aliases is forwarded with them renamed. -/
theorem c9_weather_route_amended_witness :
    weather_proxy 1024 60 [] outcomesJson200 0 ⟨[], 0⟩
      = ((400, missingParametersPayload), (⟨[], 0⟩ : SysState)) ∧
    weather_proxy 1024 60 [("lat".data, "10".data), ("lon".data, "20".data)]
        outcomesJson200 0 ⟨[], 0⟩
      = forward 1024 60 "forecast".data
          (normalizeWeatherParams [("lat".data, "10".data), ("lon".data, "20".data)])
          outcomesJson200 0 ⟨[], 0⟩ ∧
    argsGet (normalizeWeatherParams [("lat".data, "10".data), ("lon".data, "20".data)])
        ("latitude".data) = some ("10".data) ∧
    argsGet (normalizeWeatherParams [("lat".data, "10".data), ("lon".data, "20".data)])
        ("lon".data) = none :=
  ⟨c9_weather_route_amended.1 1024 60 [] outcomesJson200 0 ⟨[], 0⟩ rfl,
   c9_weather_route_amended.2.1 1024 60
     [("lat".data, "10".data), ("lon".data, "20".data)] outcomesJson200 0 ⟨[], 0⟩ rfl,
   (c9_weather_route_amended.2.2.1
     [("lat".data, "10".data), ("lon".data, "20".data)] ("10".data) rfl).1,
   (c9_weather_route_amended.2.2.2.1
     [("lat".data, "10".data), ("lon".data, "20".data)] ("20".data) rfl).2⟩

/-! ### The sort order used by `_cache_key` -/

/-- `pyStrLt` is irreflexive. -/
theorem pyStrLt_irrefl : ∀ a : PyStr, pyStrLt a a = false := by
  intro a
  induction a with
  | nil => rfl
  | cons c cs ih => simp [pyStrLt, lt_irrefl, ih]

/-- `pyStrLt` is asymmetric. -/
theorem pyStrLt_asymm : ∀ a b : PyStr, pyStrLt a b = true → pyStrLt b a = true → False := by
  intro a
  induction a with
  | nil =>
    intro b h1 h2
    cases b with
    | nil => simp [pyStrLt] at h1
    | cons d ds => simp [pyStrLt] at h2
  | cons c cs ih =>
    intro b h1 h2
    cases b with
    | nil => simp [pyStrLt] at h1
    | cons d ds =>
      by_cases hcd : c < d
      · have hdc : ¬ d < c := lt_asymm hcd
        simp [pyStrLt, hcd, hdc] at h2
      · by_cases hdc : d < c
        · simp [pyStrLt, hcd, hdc] at h1
        · simp [pyStrLt, hcd, hdc] at h1 h2
          exact ih ds h1 h2

/-- `pyStrLt` is transitive. -/
theorem pyStrLt_trans : ∀ a b c : PyStr,
    pyStrLt a b = true → pyStrLt b c = true → pyStrLt a c = true := by
  intro a
  induction a with
  | nil =>
    intro b c h1 h2
    cases b with
    | nil => simp [pyStrLt] at h1
    | cons y ys =>
      cases c with
      | nil => simp [pyStrLt] at h2
      | cons z zs => simp [pyStrLt]
  | cons x xs ih =>
    intro b c h1 h2
    cases b with
    | nil => simp [pyStrLt] at h1
    | cons y ys =>
      cases c with
      | nil => simp [pyStrLt] at h2
      | cons z zs =>
        by_cases hxy : x < y
        · by_cases hyz : y < z
          · simp [pyStrLt, lt_trans hxy hyz]
          · by_cases hzy : z < y
            · simp [pyStrLt, hyz, hzy] at h2
            · have he : y = z := le_antisymm (not_lt.mp hzy) (not_lt.mp hyz)
              subst he
              simp [pyStrLt, hxy]
        · by_cases hyx : y < x
          · simp [pyStrLt, hxy, hyx] at h1
          · have he : x = y := le_antisymm (not_lt.mp hyx) (not_lt.mp hxy)
            subst he
            by_cases hxz : x < z
            · simp [pyStrLt, hxz]
            · by_cases hzx : z < x
              · simp [pyStrLt, hxz, hzx] at h2
              · simp [pyStrLt, hxz, hzx] at h1 h2 ⊢
                exact ih ys zs h1 h2

/-- Two strings neither of which is below the other are equal. -/
theorem pyStrLt_eq_of_not : ∀ a b : PyStr,
    pyStrLt a b = false → pyStrLt b a = false → a = b := by
  intro a
  induction a with
  | nil =>
    intro b h1 h2
    cases b with
    | nil => rfl
    | cons d ds => simp [pyStrLt] at h1
  | cons c cs ih =>
    intro b h1 h2
    cases b with
    | nil => simp [pyStrLt] at h2
    | cons d ds =>
      by_cases hcd : c < d
      · simp [pyStrLt, hcd] at h1
      · by_cases hdc : d < c
        · simp [pyStrLt, hdc, hcd] at h2
        · have he : c = d := le_antisymm (not_lt.mp hdc) (not_lt.mp hcd)
          subst he
          simp [pyStrLt, lt_irrefl] at h1 h2
          rw [ih ds h1 h2]

instance : IsTotal (PyStr × PyStr) pairLe := by
  constructor
  intro p q
  cases h1 : pyStrLt p.1 q.1 with
  | true => exact Or.inl (Or.inl h1)
  | false =>
    cases h2 : pyStrLt q.1 p.1 with
    | true => exact Or.inr (Or.inl h2)
    | false =>
      have he : p.1 = q.1 := pyStrLt_eq_of_not _ _ h1 h2
      cases h3 : pyStrLt p.2 q.2 with
      | true => exact Or.inl (Or.inr ⟨he, Or.inl h3⟩)
      | false =>
        cases h4 : pyStrLt q.2 p.2 with
        | true => exact Or.inr (Or.inr ⟨he.symm, Or.inl h4⟩)
        | false => exact Or.inl (Or.inr ⟨he, Or.inr (pyStrLt_eq_of_not _ _ h3 h4)⟩)

instance : IsTrans (PyStr × PyStr) pairLe := by
  constructor
  intro p q r h1 h2
  rcases h1 with h1 | ⟨he1, hv1⟩
  · rcases h2 with h2 | ⟨he2, hv2⟩
    · exact Or.inl (pyStrLt_trans _ _ _ h1 h2)
    · exact Or.inl (he2 ▸ h1)
  · rcases h2 with h2 | ⟨he2, hv2⟩
    · exact Or.inl (he1 ▸ h2)
    · refine Or.inr ⟨he1.trans he2, ?_⟩
      rcases hv1 with hv1 | hv1 <;> rcases hv2 with hv2 | hv2
      · exact Or.inl (pyStrLt_trans _ _ _ hv1 hv2)
      · exact Or.inl (hv2 ▸ hv1)
      · exact Or.inl (hv1 ▸ hv2)
      · exact Or.inr (hv1.trans hv2)

instance : IsAntisymm (PyStr × PyStr) pairLe := by
  constructor
  intro p q h1 h2
  rcases h1 with h1 | ⟨he1, hv1⟩
  · rcases h2 with h2 | ⟨he2, hv2⟩
    · exact (pyStrLt_asymm _ _ h1 h2).elim
    · rw [he2] at h1
      rw [pyStrLt_irrefl] at h1
      simp at h1
  · rcases h2 with h2 | ⟨he2, hv2⟩
    · rw [he1] at h2
      rw [pyStrLt_irrefl] at h2
      simp at h2
    · refine Prod.ext he1 ?_
      rcases hv1 with hv1 | hv1 <;> rcases hv2 with hv2 | hv2
      · exact (pyStrLt_asymm _ _ hv1 hv2).elim
      · rw [hv2] at hv1
        rw [pyStrLt_irrefl] at hv1
        simp at hv1
      · rw [hv1] at hv2
        rw [pyStrLt_irrefl] at hv2
        simp at hv2
      · exact hv1

/-- `sorted(params.items())` is a permutation of the items. -/
theorem sortItems_perm (l : List (PyStr × PyStr)) : (sortItems l).Perm l :=
  List.perm_insertionSort pairLe l

/-- Two params mappings with the same (name, value) pairs in any order sort
to the same list. -/
theorem sortItems_eq_of_perm (l1 l2 : List (PyStr × PyStr)) (h : l1.Perm l2) :
    sortItems l1 = sortItems l2 :=
  List.eq_of_perm_of_sorted
    ((List.perm_insertionSort pairLe l1).trans
      (h.trans (List.perm_insertionSort pairLe l2).symm))
    (List.sorted_insertionSort pairLe l1)
    (List.sorted_insertionSort pairLe l2)

/-! ### The decoder inverts the rendering -/

/-- `unescapeUntil` inverts `pyEscape` followed by the closing delimiter. -/
theorem unescapeUntil_roundtrip (q : Char) (hq : q ≠ '\\') :
    ∀ (s : PyStr) (rest : List Char),
      unescapeUntil q (pyEscape q s ++ q :: rest) = some (s, rest) := by
  intro s
  induction s with
  | nil =>
    intro rest
    show unescapeUntil q (q :: rest) = some ([], rest)
    unfold unescapeUntil
    rw [if_pos rfl]
  | cons c cs ih =>
    intro rest
    by_cases hb : c = '\\' ∨ c = q
    · have hesc : pyEscape q (c :: cs) = '\\' :: c :: pyEscape q cs := by
        simp only [pyEscape]
        rw [if_pos hb]
      rw [hesc, List.cons_append, List.cons_append]
      unfold unescapeUntil
      rw [if_neg (Ne.symm hq), if_pos rfl]
      show (match unescapeUntil q (pyEscape q cs ++ q :: rest) with
            | some (s, r) => some (c :: s, r)
            | none => none) = some (c :: cs, rest)
      rw [ih rest]
    · have hcq : c ≠ q := fun hc => hb (Or.inr hc)
      have hcb : c ≠ '\\' := fun hc => hb (Or.inl hc)
      have hesc : pyEscape q (c :: cs) = c :: pyEscape q cs := by
        simp only [pyEscape]
        rw [if_neg hb]
      rw [hesc, List.cons_append]
      unfold unescapeUntil
      rw [if_neg hcq, if_neg hcb]
      rw [ih rest]

/-- `parseStr` inverts `pyReprChars`. -/
theorem parseStr_roundtrip (s : PyStr) (rest : List Char) :
    parseStr (pyReprChars s ++ rest) = some (s, rest) := by
  unfold pyReprChars
  split
  · have hsplit : ('"' :: pyEscape '"' s ++ ['"']) ++ rest
        = '"' :: (pyEscape '"' s ++ '"' :: rest) := by
      simp
    rw [hsplit]
    show (if ('"' : Char) = '\'' ∨ ('"' : Char) = '"' then
        unescapeUntil '"' (pyEscape '"' s ++ '"' :: rest) else none) = some (s, rest)
    rw [if_pos (by decide : ('"' : Char) = '\'' ∨ ('"' : Char) = '"')]
    exact unescapeUntil_roundtrip '"' (by decide) s rest
  · have hsplit : ('\'' :: pyEscape '\'' s ++ ['\'']) ++ rest
        = '\'' :: (pyEscape '\'' s ++ '\'' :: rest) := by
      simp
    rw [hsplit]
    show (if ('\'' : Char) = '\'' ∨ ('\'' : Char) = '"' then
        unescapeUntil '\'' (pyEscape '\'' s ++ '\'' :: rest) else none) = some (s, rest)
    rw [if_pos (by decide : ('\'' : Char) = '\'' ∨ ('\'' : Char) = '"')]
    exact unescapeUntil_roundtrip '\'' (by decide) s rest

/-- `parsePairTok` inverts `pyReprPair`. -/
theorem parsePairTok_roundtrip (p : PyStr × PyStr) (rest : List Char) :
    parsePairTok (pyReprPair p ++ rest) = some (p, rest) := by
  have hsplit : pyReprPair p ++ rest
      = '(' :: (pyReprChars p.1 ++ (',' :: ' ' :: (pyReprChars p.2 ++ ')' :: rest))) := by
    unfold pyReprPair pyReprPairBody
    simp
  rw [hsplit]
  simp only [parsePairTok, parseStr_roundtrip]
  simp

/-- Each further rendered pair adds at least one character. -/
theorem pyReprTupleRest_length (ps : List (PyStr × PyStr)) :
    ps.length ≤ (pyReprTupleRest ps).length := by
  induction ps with
  | nil => simp [pyReprTupleRest]
  | cons p ps ih =>
    simp only [pyReprTupleRest, List.length_cons, List.length_append]
    omega

/-- `parsePairsAux` inverts `pyReprTupleRest` followed by the closing
parenthesis, given enough fuel. -/
theorem parsePairsAux_roundtrip (ps : List (PyStr × PyStr)) :
    ∀ (fuel : Nat) (acc : List (PyStr × PyStr)) (rest : List Char),
      ps.length ≤ fuel →
      parsePairsAux fuel acc (pyReprTupleRest ps ++ ')' :: rest)
        = some (acc.reverse ++ ps, rest) := by
  induction ps with
  | nil =>
    intro fuel acc rest hfuel
    show parsePairsAux fuel acc (')' :: rest) = some (acc.reverse ++ [], rest)
    unfold parsePairsAux
    rw [if_pos rfl]
    simp
  | cons p ps ih =>
    intro fuel acc rest hfuel
    cases fuel with
    | zero => simp at hfuel
    | succ fuel2 =>
      have hsplit : pyReprTupleRest (p :: ps) ++ ')' :: rest
          = ',' :: ' ' :: (pyReprPair p ++ (pyReprTupleRest ps ++ ')' :: rest)) := by
        simp only [pyReprTupleRest]
        simp
      rw [hsplit]
      simp only [parsePairsAux, parsePairTok_roundtrip, if_true]
      rw [if_neg (by decide : ¬ (' ' : Char) = ')')]
      rw [ih fuel2 (p :: acc) rest (by simpa using hfuel)]
      simp

/-- `parseTuple` inverts `pyReprTuple`. -/
theorem parseTuple_roundtrip (l : List (PyStr × PyStr)) (rest : List Char) :
    parseTuple (pyReprTuple l ++ rest) = some (l, rest) := by
  match l with
  | [] =>
    show parseTuple ('(' :: ')' :: rest) = some ([], rest)
    rfl
  | [p] =>
    have hsplit : pyReprTuple [p] ++ rest
        = '(' :: ('(' :: pyReprPairBody p ++ (',' :: ')' :: rest)) := by
      unfold pyReprTuple pyReprPair
      simp
    have hpair : parsePairTok ('(' :: pyReprPairBody p ++ (',' :: ')' :: rest))
        = some (p, ',' :: ')' :: rest) := by
      have h2 : ('(' : Char) :: pyReprPairBody p ++ (',' :: ')' :: rest)
          = pyReprPair p ++ (',' :: ')' :: rest) := by
        unfold pyReprPair
        simp
      rw [h2, parsePairTok_roundtrip]
    rw [hsplit]
    unfold parseTuple
    dsimp only
    rw [hpair]
    rfl
  | p :: q :: qs =>
    have hsplit : pyReprTuple (p :: q :: qs) ++ rest
        = '(' :: ('(' :: pyReprPairBody p
            ++ (pyReprTupleRest (q :: qs) ++ ')' :: rest)) := by
      unfold pyReprTuple pyReprPair
      simp
    have hpair : parsePairTok ('(' :: pyReprPairBody p
          ++ (pyReprTupleRest (q :: qs) ++ ')' :: rest))
        = some (p, pyReprTupleRest (q :: qs) ++ ')' :: rest) := by
      have h2 : ('(' : Char) :: pyReprPairBody p ++ (pyReprTupleRest (q :: qs) ++ ')' :: rest)
          = pyReprPair p ++ (pyReprTupleRest (q :: qs) ++ ')' :: rest) := by
        unfold pyReprPair
        simp
      rw [h2, parsePairTok_roundtrip]
    rw [hsplit]
    unfold parseTuple
    dsimp only
    rw [hpair]
    have hfuel : (q :: qs).length ≤ (pyReprTupleRest (q :: qs) ++ ')' :: rest).length := by
      have h1 := pyReprTupleRest_length (q :: qs)
      simp only [List.length_cons] at h1
      simp only [List.length_append, List.length_cons]
      omega
    show parsePairsAux (pyReprTupleRest (q :: qs) ++ ')' :: rest).length [p]
        (pyReprTupleRest (q :: qs) ++ ')' :: rest) = some (p :: q :: qs, rest)
    rw [parsePairsAux_roundtrip (q :: qs) _ [p] rest hfuel]
    simp

/-- The tuple rendering is injective. -/
theorem pyReprTuple_injective (l1 l2 : List (PyStr × PyStr))
    (h : pyReprTuple l1 = pyReprTuple l2) : l1 = l2 := by
  have h1 := parseTuple_roundtrip l1 []
  have h2 := parseTuple_roundtrip l2 []
  rw [h] at h1
  rw [h1] at h2
  simpa using h2


/-! ### The automaton accepts exactly the renderings it needs to -/

/-- Character category tests. -/
theorem charCat_eq_squote (c : Char) : charCat c = CharCat.squote ↔ c = '\'' := by
  unfold charCat
  split_ifs <;> simp_all

/-- Character category test for the double quote. -/
theorem charCat_eq_dquote (c : Char) : charCat c = CharCat.dquote ↔ c = '"' := by
  unfold charCat
  split_ifs <;> simp_all

/-- Character category test for the backslash. -/
theorem charCat_eq_backslash (c : Char) : charCat c = CharCat.backslash ↔ c = '\\' := by
  unfold charCat
  split_ifs <;> simp_all

/-- Runs compose over list concatenation. -/
theorem reprRunFrom_append (a : List Char) :
    ∀ (st : ReprState) (b : List Char),
      reprRunFrom st (a ++ b) = (reprRunFrom st a).bind (fun s2 => reprRunFrom s2 b) := by
  induction a with
  | nil =>
    intro st b
    rfl
  | cons c cs ih =>
    intro st b
    rw [List.cons_append]
    simp only [reprRunFrom]
    cases hstep : reprStep st (charCat c) with
    | none => rfl
    | some st3 => exact ih st3 b

/-- A successful run extends over an appended suffix. -/
theorem reprRunFrom_append_of {a : List Char} {st st2 : ReprState} (b : List Char)
    (h : reprRunFrom st a = some st2) :
    reprRunFrom st (a ++ b) = reprRunFrom st2 b := by
  rw [reprRunFrom_append a st b, h]
  rfl

/-- Escaped content keeps the automaton inside a single-quoted key string. -/
theorem runContent_k_sq (f : Bool) :
    ∀ s : PyStr, reprRunFrom (.kIn .squote f) (pyEscape '\'' s) = some (.kIn .squote f) := by
  intro s
  induction s with
  | nil => rfl
  | cons c cs ih =>
    by_cases hb : c = '\\' ∨ c = '\''
    · have hesc : pyEscape '\'' (c :: cs) = '\\' :: c :: pyEscape '\'' cs := by
        simp only [pyEscape]
        rw [if_pos hb]
      rw [hesc]
      show reprRunFrom (.kEsc .squote f) (c :: pyEscape '\'' cs) = some (.kIn .squote f)
      rcases hb with hb | hb <;> subst hb
      · exact ih
      · exact ih
    · have hcq : c ≠ '\'' := fun hc => hb (Or.inr hc)
      have hcb : c ≠ '\\' := fun hc => hb (Or.inl hc)
      have hesc : pyEscape '\'' (c :: cs) = c :: pyEscape '\'' cs := by
        simp only [pyEscape]
        rw [if_neg hb]
      rw [hesc]
      have hstep : reprStep (.kIn .squote f) (charCat c) = some (.kIn .squote f) := by
        show (if charCat c = CharCat.squote then some (ReprState.kEnd f)
              else if charCat c = CharCat.backslash then some (.kEsc .squote f)
              else some (.kIn .squote f)) = some (.kIn .squote f)
        rw [if_neg (fun hc => hcq ((charCat_eq_squote c).mp hc))]
        rw [if_neg (fun hc => hcb ((charCat_eq_backslash c).mp hc))]
      unfold reprRunFrom
      rw [hstep]
      exact ih

/-- Escaped content keeps the automaton inside a double-quoted key string
(the rendered string contains no double quote). -/
theorem runContent_k_dq (f : Bool) :
    ∀ s : PyStr, s.contains '"' = false →
      reprRunFrom (.kIn .dquote f) (pyEscape '"' s) = some (.kIn .dquote f) := by
  intro s
  induction s with
  | nil => intro h; rfl
  | cons c cs ih =>
    intro h
    have hc2 : c ≠ '"' := by
      intro hc
      subst hc
      simp [List.contains_cons] at h
    have htail : cs.contains '"' = false := by
      simp [List.contains_cons] at h
      simp [h.2]
    by_cases hb : c = '\\' ∨ c = '"'
    · have hcb : c = '\\' := hb.resolve_right hc2
      subst hcb
      have hesc : pyEscape '"' ('\\' :: cs) = '\\' :: '\\' :: pyEscape '"' cs := by
        simp [pyEscape]
      rw [hesc]
      show reprRunFrom (.kEsc .dquote f) ('\\' :: pyEscape '"' cs) = some (.kIn .dquote f)
      show reprRunFrom (.kIn .dquote f) (pyEscape '"' cs) = some (.kIn .dquote f)
      exact ih htail
    · have hcb : c ≠ '\\' := fun hc => hb (Or.inl hc)
      have hesc : pyEscape '"' (c :: cs) = c :: pyEscape '"' cs := by
        simp only [pyEscape]
        rw [if_neg hb]
      rw [hesc]
      have hstep : reprStep (.kIn .dquote f) (charCat c) = some (.kIn .dquote f) := by
        show (if charCat c = CharCat.dquote then some (ReprState.kEnd f)
              else if charCat c = CharCat.backslash then some (.kEsc .dquote f)
              else some (.kIn .dquote f)) = some (.kIn .dquote f)
        rw [if_neg (fun hc => hc2 ((charCat_eq_dquote c).mp hc))]
        rw [if_neg (fun hc => hcb ((charCat_eq_backslash c).mp hc))]
      unfold reprRunFrom
      rw [hstep]
      exact ih htail

/-- Escaped content keeps the automaton inside a single-quoted value string. -/
theorem runContent_v_sq (f : Bool) :
    ∀ s : PyStr, reprRunFrom (.vIn .squote f) (pyEscape '\'' s) = some (.vIn .squote f) := by
  intro s
  induction s with
  | nil => rfl
  | cons c cs ih =>
    by_cases hb : c = '\\' ∨ c = '\''
    · have hesc : pyEscape '\'' (c :: cs) = '\\' :: c :: pyEscape '\'' cs := by
        simp only [pyEscape]
        rw [if_pos hb]
      rw [hesc]
      show reprRunFrom (.vEsc .squote f) (c :: pyEscape '\'' cs) = some (.vIn .squote f)
      rcases hb with hb | hb <;> subst hb
      · exact ih
      · exact ih
    · have hcq : c ≠ '\'' := fun hc => hb (Or.inr hc)
      have hcb : c ≠ '\\' := fun hc => hb (Or.inl hc)
      have hesc : pyEscape '\'' (c :: cs) = c :: pyEscape '\'' cs := by
        simp only [pyEscape]
        rw [if_neg hb]
      rw [hesc]
      have hstep : reprStep (.vIn .squote f) (charCat c) = some (.vIn .squote f) := by
        show (if charCat c = CharCat.squote then some (ReprState.vEnd f)
              else if charCat c = CharCat.backslash then some (.vEsc .squote f)
              else some (.vIn .squote f)) = some (.vIn .squote f)
        rw [if_neg (fun hc => hcq ((charCat_eq_squote c).mp hc))]
        rw [if_neg (fun hc => hcb ((charCat_eq_backslash c).mp hc))]
      unfold reprRunFrom
      rw [hstep]
      exact ih

/-- Escaped content keeps the automaton inside a double-quoted value string. -/
theorem runContent_v_dq (f : Bool) :
    ∀ s : PyStr, s.contains '"' = false →
      reprRunFrom (.vIn .dquote f) (pyEscape '"' s) = some (.vIn .dquote f) := by
  intro s
  induction s with
  | nil => intro h; rfl
  | cons c cs ih =>
    intro h
    have hc2 : c ≠ '"' := by
      intro hc
      subst hc
      simp [List.contains_cons] at h
    have htail : cs.contains '"' = false := by
      simp [List.contains_cons] at h
      simp [h.2]
    by_cases hb : c = '\\' ∨ c = '"'
    · have hcb : c = '\\' := hb.resolve_right hc2
      subst hcb
      have hesc : pyEscape '"' ('\\' :: cs) = '\\' :: '\\' :: pyEscape '"' cs := by
        simp [pyEscape]
      rw [hesc]
      show reprRunFrom (.vIn .dquote f) (pyEscape '"' cs) = some (.vIn .dquote f)
      exact ih htail
    · have hcb : c ≠ '\\' := fun hc => hb (Or.inl hc)
      have hesc : pyEscape '"' (c :: cs) = c :: pyEscape '"' cs := by
        simp only [pyEscape]
        rw [if_neg hb]
      rw [hesc]
      have hstep : reprStep (.vIn .dquote f) (charCat c) = some (.vIn .dquote f) := by
        show (if charCat c = CharCat.dquote then some (ReprState.vEnd f)
              else if charCat c = CharCat.backslash then some (.vEsc .dquote f)
              else some (.vIn .dquote f)) = some (.vIn .dquote f)
        rw [if_neg (fun hc => hc2 ((charCat_eq_dquote c).mp hc))]
        rw [if_neg (fun hc => hcb ((charCat_eq_backslash c).mp hc))]
      unfold reprRunFrom
      rw [hstep]
      exact ih htail

/-- A rendered string takes the automaton from key-open to key-end. -/
theorem runStr_k (f : Bool) (s : PyStr) :
    reprRunFrom (.kOpen f) (pyReprChars s) = some (.kEnd f) := by
  unfold pyReprChars
  split
  · rename_i hcond
    show reprRunFrom (.kIn .dquote f) (pyEscape '"' s ++ ['"']) = some (.kEnd f)
    have hnq : s.contains '"' = false := by
      have h2 := hcond.2
      simpa using h2
    rw [reprRunFrom_append_of ['"'] (runContent_k_dq f s hnq)]
    rfl
  · show reprRunFrom (.kIn .squote f) (pyEscape '\'' s ++ ['\'']) = some (.kEnd f)
    rw [reprRunFrom_append_of ['\''] (runContent_k_sq f s)]
    rfl

/-- A rendered string takes the automaton from value-open to value-end. -/
theorem runStr_v (f : Bool) (s : PyStr) :
    reprRunFrom (.vOpen f) (pyReprChars s) = some (.vEnd f) := by
  unfold pyReprChars
  split
  · rename_i hcond
    show reprRunFrom (.vIn .dquote f) (pyEscape '"' s ++ ['"']) = some (.vEnd f)
    have hnq : s.contains '"' = false := by
      have h2 := hcond.2
      simpa using h2
    rw [reprRunFrom_append_of ['"'] (runContent_v_dq f s hnq)]
    rfl
  · show reprRunFrom (.vIn .squote f) (pyEscape '\'' s ++ ['\'']) = some (.vEnd f)
    rw [reprRunFrom_append_of ['\''] (runContent_v_sq f s)]
    rfl

/-- A rendered pair body takes the automaton from key-open to pair-end. -/
theorem runPairBody (f : Bool) (p : PyStr × PyStr) :
    reprRunFrom (.kOpen f) (pyReprPairBody p) = some (.pEnd f) := by
  have hsplit : pyReprPairBody p
      = pyReprChars p.1 ++ (',' :: ' ' :: (pyReprChars p.2 ++ [')'])) := by
    unfold pyReprPairBody
    simp
  rw [hsplit]
  rw [reprRunFrom_append_of (',' :: ' ' :: (pyReprChars p.2 ++ [')'])) (runStr_k f p.1)]
  show reprRunFrom (.vOpen f) (pyReprChars p.2 ++ [')']) = some (.pEnd f)
  rw [reprRunFrom_append_of [')'] (runStr_v f p.2)]
  rfl

/-- The rendering of the further pairs of a tuple, followed by the closing
parenthesis, takes the automaton from a pair-end state to acceptance. -/
theorem runRest (ps : List (PyStr × PyStr)) :
    ∀ f : Bool, ps ≠ [] →
      reprRunFrom (.pEnd f) (pyReprTupleRest ps ++ [')']) = some .acc := by
  induction ps with
  | nil => intro f h; exact absurd rfl h
  | cons r rs ih =>
    intro f _
    have hsplit : pyReprTupleRest (r :: rs) ++ [')']
        = ',' :: ' ' :: '(' :: (pyReprPairBody r ++ (pyReprTupleRest rs ++ [')'])) := by
      simp only [pyReprTupleRest, pyReprPair]
      simp
    rw [hsplit]
    show reprRunFrom (.kOpen false) (pyReprPairBody r ++ (pyReprTupleRest rs ++ [')']))
        = some .acc
    rw [reprRunFrom_append_of (pyReprTupleRest rs ++ [')']) (runPairBody false r)]
    cases rs with
    | nil => rfl
    | cons r2 rs2 => exact ih false (by simp)

/-- The rendering of a whole tuple is accepted by the automaton. -/
theorem runTuple (l : List (PyStr × PyStr)) :
    reprRunFrom .start (pyReprTuple l) = some .acc := by
  match l with
  | [] => rfl
  | [p] =>
    have h1 : pyReprTuple [p] = '(' :: '(' :: (pyReprPairBody p ++ [',', ')']) := by
      unfold pyReprTuple pyReprPair
      simp
    rw [h1]
    show reprRunFrom (.kOpen true) (pyReprPairBody p ++ [',', ')']) = some .acc
    rw [reprRunFrom_append_of [',', ')'] (runPairBody true p)]
    rfl
  | p :: q :: qs =>
    have h1 : pyReprTuple (p :: q :: qs)
        = '(' :: '(' :: (pyReprPairBody p ++ (pyReprTupleRest (q :: qs) ++ [')'])) := by
      unfold pyReprTuple pyReprPair
      simp
    rw [h1]
    show reprRunFrom (.kOpen true)
        (pyReprPairBody p ++ (pyReprTupleRest (q :: qs) ++ [')'])) = some .acc
    rw [reprRunFrom_append_of (pyReprTupleRest (q :: qs) ++ [')']) (runPairBody true p)]
    exact runRest (q :: qs) true (by simp)


/-! ### Joint runs over a shared word cannot doubly accept -/

/-- The separator bar is an ordinary character for the automaton. -/
theorem charCat_bar : charCat '|' = CharCat.other := by decide

/-- A character of category `other` only moves the automaton within
string-content states. -/
theorem step_other_inside : ∀ (st st2 : ReprState),
    reprStep st CharCat.other = some st2 → st2 ∈ insideStates := by decide

set_option maxRecDepth 10000 in
/-- The jointly-reachable pair set is closed under joint transitions. -/
theorem rMem_closed : ∀ (a b : ReprState) (cc : CharCat),
    rMem a b = true → stepOk a b cc = true := by decide

/-- Every pair of an inside-string state with the start state is in the set. -/
theorem rMem_init : ∀ st ∈ insideStates, rMem st ReprState.start = true := by decide

/-- The doubly-accepting pair is not in the set. -/
theorem rMem_not_acc : rMem ReprState.acc ReprState.acc = false := by decide

/-- Joint runs over a shared word stay in the jointly-reachable set. -/
theorem rMem_run (w : List Char) : ∀ (a b a2 b2 : ReprState),
    rMem a b = true →
    reprRunFrom a w = some a2 → reprRunFrom b w = some b2 →
    rMem a2 b2 = true := by
  induction w with
  | nil =>
    intro a b a2 b2 hm h1 h2
    have ha : a = a2 := by simpa [reprRunFrom] using h1
    have hb : b = b2 := by simpa [reprRunFrom] using h2
    rw [← ha, ← hb]
    exact hm
  | cons c cs ih =>
    intro a b a2 b2 hm h1 h2
    simp only [reprRunFrom] at h1 h2
    cases hs1 : reprStep a (charCat c) with
    | none => rw [hs1] at h1; simp at h1
    | some a3 =>
      rw [hs1] at h1
      cases hs2 : reprStep b (charCat c) with
      | none => rw [hs2] at h2; simp at h2
      | some b3 =>
        rw [hs2] at h2
        have hm2 : rMem a3 b3 = true := by
          have hcl := rMem_closed a b (charCat c) hm
          unfold stepOk at hcl
          rw [hs1, hs2] at hcl
          exact hcl
        exact ih a3 b3 a2 b2 hm2 h1 h2

/-- If a word of the form `u ++ bar ++ v` is accepted from the start state,
the suffix `v` is accepted from some inside-string state. -/
theorem run_split {u v : List Char}
    (h : reprRunFrom ReprState.start (u ++ '|' :: v) = some ReprState.acc) :
    ∃ st ∈ insideStates, reprRunFrom st v = some ReprState.acc := by
  have hsplit := reprRunFrom_append u ReprState.start ('|' :: v)
  rw [h] at hsplit
  cases hu : reprRunFrom ReprState.start u with
  | none =>
    rw [hu] at hsplit
    exact absurd hsplit.symm (by simp)
  | some st1 =>
    rw [hu] at hsplit
    have h2 : reprRunFrom st1 ('|' :: v) = some ReprState.acc := hsplit.symm
    simp only [reprRunFrom, charCat_bar] at h2
    cases hs : reprStep st1 CharCat.other with
    | none => rw [hs] at h2; simp at h2
    | some st2 =>
      rw [hs] at h2
      exact ⟨st2, step_other_inside st1 st2 hs, h2⟩

/-- No word is accepted both from an inside-string state and from the start
state. -/
theorem no_joint_accept {st : ReprState} (hst : st ∈ insideStates) {v : List Char}
    (h1 : reprRunFrom st v = some ReprState.acc)
    (h2 : reprRunFrom ReprState.start v = some ReprState.acc) : False := by
  have hm := rMem_run v st ReprState.start ReprState.acc ReprState.acc
    (rMem_init st hst) h1 h2
  rw [rMem_not_acc] at hm
  exact Bool.noConfusion hm

/-- Cache keys of requests whose paths have different lengths differ. -/
theorem cache_key_ne_of_lt (p1 p2 : PyStr) (l1 l2 : List (PyStr × PyStr))
    (hlt : p1.length < p2.length) :
    _cache_key p1 l1 ≠ _cache_key p2 l2 := by
  intro h
  unfold _cache_key at h
  have hd := congrArg (List.drop (p1.length + 1)) h
  have hL : List.drop (p1.length + 1) (p1 ++ '|' :: pyReprTuple (sortItems l1))
      = pyReprTuple (sortItems l1) := by
    have hsp : p1 ++ '|' :: pyReprTuple (sortItems l1)
        = (p1 ++ ['|']) ++ pyReprTuple (sortItems l1) := by simp
    have hlen : p1.length + 1 = (p1 ++ ['|']).length := by simp
    rw [hsp, hlen, List.drop_left]
  have hle : p1.length + 1 ≤ p2.length := hlt
  have hR : List.drop (p1.length + 1) (p2 ++ '|' :: pyReprTuple (sortItems l2))
      = List.drop (p1.length + 1) p2 ++ '|' :: pyReprTuple (sortItems l2) := by
    rw [List.drop_append_of_le_length hle]
  rw [hL, hR] at hd
  have hrun1 : reprRunFrom ReprState.start
      (List.drop (p1.length + 1) p2 ++ '|' :: pyReprTuple (sortItems l2))
      = some ReprState.acc := by
    rw [← hd]
    exact runTuple (sortItems l1)
  obtain ⟨st, hst, hv⟩ := run_split hrun1
  exact no_joint_accept hst hv (runTuple (sortItems l2))


/-- C2: the cache key string `path ++ bar ++ repr(tuple(sorted(params)))` is
insensitive to the order of the params pairs, and otherwise injective: two
requests share a key exactly when they have the same path and the same
multiset of (name, value) pairs. -/
theorem c2_cache_key_order_invariant_and_injective :
    (∀ (path : PyStr) (params1 params2 : List (PyStr × PyStr)),
        params1.Perm params2 → _cache_key path params1 = _cache_key path params2) ∧
    (∀ (p1 p2 : PyStr) (l1 l2 : List (PyStr × PyStr)),
        _cache_key p1 l1 = _cache_key p2 l2 → p1 = p2 ∧ l1.Perm l2) := by
  constructor
  · intro path params1 params2 hperm
    unfold _cache_key
    rw [sortItems_eq_of_perm params1 params2 hperm]
  · intro p1 p2 l1 l2 h
    rcases Nat.lt_trichotomy p1.length p2.length with hlt | heq | hgt
    · exact absurd h (cache_key_ne_of_lt p1 p2 l1 l2 hlt)
    · unfold _cache_key at h
      obtain ⟨hp, ht⟩ := List.append_inj h heq
      have htup : pyReprTuple (sortItems l1) = pyReprTuple (sortItems l2) := by
        injection ht
      have hsort : sortItems l1 = sortItems l2 := pyReprTuple_injective _ _ htup
      have hperm : l1.Perm l2 := by
        have h1 := (sortItems_perm l1).symm
        rw [hsort] at h1
        exact h1.trans (sortItems_perm l2)
      exact ⟨hp, hperm⟩
    · exact absurd h.symm (cache_key_ne_of_lt p2 p1 l2 l1 hgt)

/-- C2 witness: a concrete swapped pair of params gives the same key, and a
concrete key equality forces equal path and permuted params. -/
theorem c2_cache_key_order_invariant_and_injective_witness :
    _cache_key ['w'] [(['a'], ['1']), (['b'], ['2'])]
      = _cache_key ['w'] [(['b'], ['2']), (['a'], ['1'])] ∧
    ((['w'] : PyStr) = ['w'] ∧
      ([(['a'], ['1'])] : List (PyStr × PyStr)).Perm [(['a'], ['1'])]) :=
  ⟨c2_cache_key_order_invariant_and_injective.1 ['w']
      [(['a'], ['1']), (['b'], ['2'])] [(['b'], ['2']), (['a'], ['1'])]
      (List.Perm.swap (['b'], ['2']) (['a'], ['1']) []),
    c2_cache_key_order_invariant_and_injective.2 ['w'] ['w']
      [(['a'], ['1'])] [(['a'], ['1'])] rfl⟩

end WeatherProxy
